import Mathlib

/-!
Verification of the voice-to-text upload service (app/app.py) against its
natural-language specification.  The Python source is shallowly embedded:
pure helpers become Lean functions, the SQLite store becomes a list of rows
with explicit state passing, and the external speech-recognition backend
becomes an explicit environment value describing its outcome.
-/

/-- Outcome of the external Google speech-recognition call
(recognizer.recognize_google): a transcript, an UnknownValueError
(unintelligible audio), or a RequestError with a detail message. -/
inductive RecOutcome where
  | ok (text : String)
  | unknown
  | requestError (detail : String)
deriving DecidableEq, Repr

/-- Outcome of opening / calibrating / recording the audio file
(sr.AudioFile, adjust_for_ambient_noise, record): success, or any raised
exception with its string rendering. -/
inductive AudioRead where
  | ok
  | exn (detail : String)
deriving DecidableEq, Repr

/-- Environment for one call of transcribe_audio: what the file read does,
what the recognition backend answers, and the elapsed wall-clock seconds
measured by datetime.now() differences at the point of return. -/
structure RecEnv where
  read : AudioRead
  outcome : RecOutcome
  elapsed : ℚ
deriving DecidableEq, Repr

/-- The dictionary returned by transcribe_audio.  Keys success and
processing_time are present in every return literal of the source, so they
are plain fields; text, confidence and error appear only in some literals,
so they are Option fields (none = key absent). -/
structure TranscribeResult where
  success : Bool
  text : Option String
  confidence : Option ℚ
  error : Option String
  processing_time : ℚ
deriving DecidableEq, Repr

/-- Embedding of transcribe_audio (app.py lines 45-84).  The outer
try/except is the AudioRead case split: any exception while opening,
calibrating or recording yields the catch-all result with
processing_time 0.  The inner try/except is the RecOutcome case split. -/
def transcribe_audio (env : RecEnv) : TranscribeResult :=
  match env.read with
  | AudioRead.exn d =>
      { success := false, text := none, confidence := none,
        error := some ("Error processing audio: " ++ d), processing_time := 0 }
  | AudioRead.ok =>
      match env.outcome with
      | RecOutcome.ok t =>
          { success := true, text := some t, confidence := some 0.95,
            error := none, processing_time := env.elapsed }
      | RecOutcome.unknown =>
          { success := false, text := none, confidence := none,
            error := some "Could not understand audio",
            processing_time := env.elapsed }
      | RecOutcome.requestError d =>
          { success := false, text := none, confidence := none,
            error := some ("Could not request results; " ++ d),
            processing_time := env.elapsed }

/-- The extension allow-list ALLOWED_EXTENSIONS of allowed_file. -/
def ALLOWED_EXTENSIONS : List String := ["wav", "mp3", "flac", "aiff", "aac"]

/-- Python str.lower, modelled characterwise. -/
def lowerStr (s : String) : String := ⟨s.data.map Char.toLower⟩

/-- Python filename.rsplit('.', 1)[1]: the substring after the last '.',
computed from the right end as in rsplit. -/
def afterLastDot (s : String) : String :=
  ⟨(s.data.reverse.takeWhile (fun c => c ≠ '.')).reverse⟩

/-- Embedding of allowed_file (app.py lines 40-43):
'.' in filename and filename.rsplit('.', 1)[1].lower() in ALLOWED_EXTENSIONS. -/
def allowed_file (filename : String) : Bool :=
  decide ('.' ∈ filename.data) &&
  decide (lowerStr (afterLastDot filename) ∈ ALLOWED_EXTENSIONS)

example : allowed_file "sample.wav" = true := by decide
example : allowed_file "sample.WAV" = true := by decide
example : allowed_file "sample.txt" = false := by decide
example : allowed_file "sample" = false := by decide
example : allowed_file "a.b.mp3" = true := by decide
example : allowed_file "wav" = false := by decide
example : transcribe_audio ⟨AudioRead.ok, RecOutcome.ok "hi", 2⟩ =
    { success := true, text := some "hi", confidence := some 0.95,
      error := none, processing_time := 2 } := rfl

/-- One row of the transcriptions table (init_db, app.py lines 25-38):
id INTEGER PRIMARY KEY AUTOINCREMENT, filename TEXT NOT NULL,
original_text TEXT, confidence REAL, processing_time REAL,
created_at TIMESTAMP DEFAULT CURRENT_TIMESTAMP.  Nullable columns are
Option fields; created_at is the insert-time clock reading. -/
structure TranscriptionRow where
  id : Nat
  filename : String
  original_text : Option String
  confidence : Option ℚ
  processing_time : Option ℚ
  created_at : Nat
deriving DecidableEq, Repr

/-- One INSERT INTO transcriptions: the store appends the row, assigning
the AUTOINCREMENT id and the CURRENT_TIMESTAMP creation time (now). -/
def insertRow (db : List TranscriptionRow) (now : Nat) (filename : String)
    (text : Option String) (confidence : Option ℚ) (pt : Option ℚ) :
    List TranscriptionRow :=
  db ++ [{ id := db.length + 1, filename := filename, original_text := text,
           confidence := confidence, processing_time := pt, created_at := now }]

/-- Embedding of init_db (app.py lines 25-38): CREATE TABLE IF NOT EXISTS
on the store.  An absent table (none) becomes the empty table; an existing
table is left exactly as it is — no row is touched. -/
def init_db : Option (List TranscriptionRow) → List TranscriptionRow
  | none => []
  | some rows => rows

/-- The multipart request seen by upload_file: whether the form carries an
audio_file part, and the client-supplied filename of that part. -/
structure UploadRequest where
  hasAudioFile : Bool
  filename : String
deriving DecidableEq, Repr

/-- JSON responses of the /upload route, one constructor per jsonify call
in upload_file (app.py lines 91-146). -/
inductive UploadResponse where
  /-- 400 {error: "No file selected"} -/
  | noFile
  /-- 400 {error: "File type not supported. ..."} -/
  | badType
  /-- 200 {success: true, text, confidence, processing_time, filename} -/
  | ok (text : String) (confidence : ℚ) (processing_time : ℚ) (filename : String)
  /-- 400 {success: false, error, processing_time} -/
  | fail (error : String) (processing_time : ℚ)
deriving DecidableEq, Repr

/-- HTTP status code of each upload response, from the explicit ", 400"
annotations in the source (jsonify without one is 200). -/
def statusOf : UploadResponse → Nat
  | UploadResponse.noFile => 400
  | UploadResponse.badType => 400
  | UploadResponse.ok _ _ _ _ => 200
  | UploadResponse.fail _ _ => 400

/-- Filesystem effects performed by upload_file: file.save(file_path) and
os.remove(file_path). -/
inductive FileOp where
  | save (path : String)
  | remove (path : String)
deriving DecidableEq, Repr

/-- Embedding of upload_file (app.py lines 91-146).  Parameters sanitize
(werkzeug secure_filename, an external collaborator: only its result is
used, so it is passed in) and folder (UPLOAD_FOLDER) come from the
configuration; env drives transcribe_audio; now is the store clock at the
INSERT; db is the table state.  Returns the response, the new table state
and the ordered filesystem effect trace.  On success the INSERT takes
result['text'] / result['confidence'] / result['processing_time']; on
failure it takes result.get('error', 'Transcription failed').  The result
fields accessed with a direct key lookup in Python are provably present
(see transcribe_audio lemmas), so the Option defaults here are
unreachable. -/
def upload_file (sanitize : String → String) (folder : String)
    (req : UploadRequest) (env : RecEnv) (now : Nat)
    (db : List TranscriptionRow) :
    UploadResponse × List TranscriptionRow × List FileOp :=
  if ¬ req.hasAudioFile then (UploadResponse.noFile, db, [])
  else if req.filename = "" then (UploadResponse.noFile, db, [])
  else if ¬ allowed_file req.filename then (UploadResponse.badType, db, [])
  else
    let filename := sanitize req.filename
    let file_path := folder ++ "/" ++ filename
    let result := transcribe_audio env
    let db' :=
      if result.success then
        insertRow db now filename result.text result.confidence
          (some result.processing_time)
      else
        insertRow db now filename
          (some (result.error.getD "Transcription failed")) none
          (some result.processing_time)
    let resp :=
      if result.success then
        UploadResponse.ok (result.text.getD "") (result.confidence.getD 0)
          result.processing_time filename
      else
        UploadResponse.fail (result.error.getD "") result.processing_time
    (resp, db', [FileOp.save file_path, FileOp.remove file_path])

/-- The ORDER BY created_at DESC comparison: a comes no later than b in
the output when b.created_at ≤ a.created_at. -/
def createdGe (a b : TranscriptionRow) : Prop := b.created_at ≤ a.created_at

instance : DecidableRel createdGe := fun a b =>
  inferInstanceAs (Decidable (b.created_at ≤ a.created_at))

instance : IsTotal TranscriptionRow createdGe :=
  ⟨fun a b => Nat.le_total b.created_at a.created_at⟩

instance : IsTrans TranscriptionRow createdGe :=
  ⟨fun _ _ _ hab hbc => le_trans hbc hab⟩

/-- Embedding of get_history (app.py lines 148-165):
SELECT ... ORDER BY created_at DESC LIMIT 50.  SQLite leaves the order of
rows with equal created_at unspecified; the model sorts stably (a valid
refinement of the query).  Returns the response list and the table state
after the request (a SELECT leaves it unchanged). -/
def get_history (db : List TranscriptionRow) :
    List TranscriptionRow × List TranscriptionRow :=
  ((List.insertionSort createdGe db).take 50, db)

/-- The aggregate row returned by the /stats query. -/
structure StatsResult where
  total_transcriptions : Nat
  avg_processing_time : Option ℚ
  successful_transcriptions : Nat
deriving DecidableEq, Repr

/-- The CASE WHEN confidence > 0 test of the stats query; SQL three-valued
logic: a NULL confidence never satisfies the comparison. -/
def confPos (r : TranscriptionRow) : Bool :=
  match r.confidence with
  | some c => decide (0 < c)
  | none => false

/-- Embedding of get_stats (app.py lines 167-184):
COUNT(*), AVG(processing_time) (SQL AVG averages the non-NULL values and
is NULL when there are none), and COUNT(CASE WHEN confidence > 0 THEN 1
END).  Returns the aggregate row and the table state after the request. -/
def get_stats (db : List TranscriptionRow) :
    StatsResult × List TranscriptionRow :=
  let ps := db.filterMap (fun r => r.processing_time)
  ({ total_transcriptions := db.length,
     avg_processing_time :=
       if ps.isEmpty then none else some (ps.sum / ps.length),
     successful_transcriptions := db.countP confPos },
   db)

/-- An upload request that passes all three validation gates of
upload_file and therefore reaches the store. -/
def validReq (req : UploadRequest) : Bool :=
  req.hasAudioFile && !(req.filename == "") && allowed_file req.filename

/-- A sequence of /upload requests applied to the store in order, each
with its own backend environment and insert-time clock reading. -/
def runUploads (sanitize : String → String) (folder : String) :
    List (UploadRequest × RecEnv × Nat) → List TranscriptionRow →
    List TranscriptionRow
  | [], db => db
  | (req, env, now) :: rest, db =>
      runUploads sanitize folder rest
        (upload_file sanitize folder req env now db).2.1

/-- Success shape of the transcription contract: recognized text, the
fixed confidence constant 0.95, and the measured processing time. -/
def SuccessShape (elapsed : ℚ) (r : TranscribeResult) : Prop :=
  ∃ t, r = { success := true, text := some t, confidence := some 0.95,
             error := none, processing_time := elapsed }

/-- Unintelligible-audio shape: the fixed error message and the measured
processing time. -/
def UnknownShape (elapsed : ℚ) (r : TranscribeResult) : Prop :=
  r = { success := false, text := none, confidence := none,
        error := some "Could not understand audio",
        processing_time := elapsed }

/-- Backend-request-failure shape: the prefixed detail message and the
measured processing time. -/
def RequestShape (elapsed : ℚ) (r : TranscribeResult) : Prop :=
  ∃ d, r = { success := false, text := none, confidence := none,
             error := some ("Could not request results; " ++ d),
             processing_time := elapsed }

/-- Catch-all shape for any other exception during file read or decode:
the prefixed detail message and processing time 0. -/
def CatchAllShape (r : TranscribeResult) : Prop :=
  ∃ d, r = { success := false, text := none, confidence := none,
             error := some ("Error processing audio: " ++ d),
             processing_time := 0 }

/-- The row upload_file inserts for a validated request, as a function of
the request, environment, clock and the AUTOINCREMENT base (the current
table length). -/
def insertedRow (sanitize : String → String) (req : UploadRequest)
    (env : RecEnv) (now : Nat) (idBase : Nat) : TranscriptionRow :=
  let result := transcribe_audio env
  if result.success then
    { id := idBase + 1, filename := sanitize req.filename,
      original_text := result.text, confidence := result.confidence,
      processing_time := some result.processing_time, created_at := now }
  else
    { id := idBase + 1, filename := sanitize req.filename,
      original_text := some (result.error.getD "Transcription failed"),
      confidence := none, processing_time := some result.processing_time,
      created_at := now }

/-- A concrete store state with two rows created at the same clock second:
two uploads handled within one second of CURRENT_TIMESTAMP produce it. -/
def dbTie : List TranscriptionRow :=
  [{ id := 1, filename := "a.wav", original_text := some "x",
     confidence := none, processing_time := none, created_at := 7 },
   { id := 2, filename := "b.wav", original_text := some "y",
     confidence := none, processing_time := none, created_at := 7 }]

/-! ### Helper lemmas -/

/-- Two strings differ when their lengths differ. -/
theorem string_ne_of_length_ne {s t : String} (h : s.length ≠ t.length) :
    s ≠ t := fun he => h (congrArg String.length he)

/-- Two strings differ when their first characters differ. -/
theorem string_ne_of_head_ne {s t : String} {c₁ c₂ : Char}
    (h₁ : s.data.head? = some c₁) (h₂ : t.data.head? = some c₂)
    (hc : c₁ ≠ c₂) : s ≠ t := by
  intro he
  rw [he, h₂] at h₁
  exact hc (Option.some.inj h₁.symm)

theorem head_could_request (d : String) :
    ("Could not request results; " ++ d).data.head? = some 'C' := by
  rw [String.data_append]; rfl

theorem head_error_processing (d : String) :
    ("Error processing audio: " ++ d).data.head? = some 'E' := by
  rw [String.data_append]; rfl

theorem length_could_request (d : String) :
    ("Could not request results; " ++ d).length = 27 + d.length := by
  rw [String.length_append,
    show ("Could not request results; ").length = 27 from rfl]

theorem length_error_processing (d : String) :
    ("Error processing audio: " ++ d).length = 24 + d.length := by
  rw [String.length_append,
    show ("Error processing audio: ").length = 24 from rfl]

theorem understand_ne_request (d : String) :
    "Could not understand audio" ≠ "Could not request results; " ++ d := by
  apply string_ne_of_length_ne
  rw [length_could_request,
    show ("Could not understand audio").length = 26 from rfl]
  omega

theorem understand_ne_processing (d : String) :
    "Could not understand audio" ≠ "Error processing audio: " ++ d :=
  string_ne_of_head_ne rfl (head_error_processing d) (by decide)

theorem request_ne_processing (d e : String) :
    "Could not request results; " ++ d ≠ "Error processing audio: " ++ e :=
  string_ne_of_head_ne (head_could_request d) (head_error_processing e)
    (by decide)

theorem failed_ne_understand :
    "Transcription failed" ≠ "Could not understand audio" := by decide

theorem failed_ne_request (d : String) :
    "Transcription failed" ≠ "Could not request results; " ++ d := by
  apply string_ne_of_length_ne
  rw [length_could_request, show ("Transcription failed").length = 20 from rfl]
  omega

theorem failed_ne_processing (d : String) :
    "Transcription failed" ≠ "Error processing audio: " ++ d := by
  apply string_ne_of_length_ne
  rw [length_error_processing, show ("Transcription failed").length = 20 from rfl]
  omega

theorem takeWhile_until_dot {l m : List Char} (hl : ∀ c ∈ l, c ≠ '.') :
    (l ++ '.' :: m).takeWhile (fun c => c ≠ '.') = l := by
  rw [List.takeWhile_append_of_pos (fun c hc => by simpa using hl c hc)]
  rw [List.takeWhile_cons_of_neg (by simp)]
  simp

/-- Any character list containing '.' splits as pre ++ '.' :: suf with a
dot-free suffix, and the rsplit-style scan from the right recovers suf. -/
theorem dot_split {l : List Char} (h : '.' ∈ l) :
    ∃ pre suf : List Char, l = pre ++ '.' :: suf ∧ '.' ∉ suf ∧
      (l.reverse.takeWhile (fun c => c ≠ '.')).reverse = suf := by
  have hr : '.' ∈ l.reverse := List.mem_reverse.mpr h
  have hdw : l.reverse.dropWhile (fun c => c ≠ '.') ≠ [] := by
    intro hnil
    have := List.dropWhile_eq_nil_iff.mp hnil '.' hr
    simp at this
  have hhd := List.head_dropWhile_not (fun c => (c ≠ '.' : Bool)) l.reverse hdw
  have hhd' : (l.reverse.dropWhile (fun c => c ≠ '.')).head hdw = '.' := by
    simpa using hhd
  have hcons : l.reverse.dropWhile (fun c => c ≠ '.') =
      '.' :: (l.reverse.dropWhile (fun c => c ≠ '.')).tail := by
    have hcons0 := (List.head_cons_tail _ hdw).symm
    rw [hhd'] at hcons0
    exact hcons0
  have hsplit : l.reverse = l.reverse.takeWhile (fun c => c ≠ '.') ++
      '.' :: (l.reverse.dropWhile (fun c => c ≠ '.')).tail := by
    conv_lhs => rw [← List.takeWhile_append_dropWhile
      (p := fun c => (c ≠ '.' : Bool)) (l := l.reverse)]
    rw [← hcons]
  refine ⟨((l.reverse.dropWhile (fun c => c ≠ '.')).tail).reverse,
    (l.reverse.takeWhile (fun c => c ≠ '.')).reverse, ?_, ?_, rfl⟩
  · have := congrArg List.reverse hsplit
    simpa [List.reverse_append] using this
  · intro hmem
    have hmem' : '.' ∈ l.reverse.takeWhile (fun c => c ≠ '.') :=
      List.mem_reverse.mp hmem
    have := List.mem_takeWhile_imp hmem'
    simp at this

/-- The data of a ++ "." ++ e is a.data ++ '.' :: e.data. -/
theorem data_dot_append (a e : String) :
    (a ++ "." ++ e).data = a.data ++ '.' :: e.data := by
  simp [String.data_append]

/-- afterLastDot recovers the extension of a filename built from a base,
a dot and a dot-free extension. -/
theorem afterLastDot_append (a e : String) (he : '.' ∉ e.data) :
    afterLastDot (a ++ "." ++ e) = e := by
  unfold afterLastDot
  rw [data_dot_append]
  rw [show (a.data ++ '.' :: e.data).reverse =
      e.data.reverse ++ '.' :: a.data.reverse by
    simp [List.reverse_append]]
  rw [takeWhile_until_dot (fun c hc hdot => by
    exact he (List.mem_reverse.mp (hdot ▸ hc)))]
  simp

/-- On a filename with a dot-free extension, allowed_file is exactly the
allow-list test of the lowercased extension. -/
theorem allowed_file_append (a e : String) (he : '.' ∉ e.data) :
    allowed_file (a ++ "." ++ e) =
      decide (lowerStr e ∈ ALLOWED_EXTENSIONS) := by
  rw [allowed_file, afterLastDot_append a e he]
  have hdot : '.' ∈ (a ++ "." ++ e).data := by
    rw [data_dot_append]
    simp
  simp [hdot]

/-- upload_file either leaves the table unchanged (failed validation) or
appends exactly the inserted row, with id based on the table length. -/
theorem upload_file_db_eq (sanitize : String → String) (folder : String)
    (req : UploadRequest) (env : RecEnv) (now : Nat)
    (db : List TranscriptionRow) :
    (upload_file sanitize folder req env now db).2.1 =
      if validReq req then
        db ++ [insertedRow sanitize req env now db.length]
      else db := by
  cases hb : req.hasAudioFile
  · simp [upload_file, validReq, hb]
  · by_cases hn : req.filename = ""
    · simp [upload_file, validReq, hb, hn]
    · cases ha : allowed_file req.filename
      · simp [upload_file, validReq, hb, hn, ha]
      · cases hs : (transcribe_audio env).success
        · simp [upload_file, validReq, insertedRow, insertRow, hb, hn, ha, hs]
        · simp [upload_file, validReq, insertedRow, insertRow, hb, hn, ha, hs]

/-- A failed transcription always carries an error message, and that
message is never the caller's fallback string. -/
theorem ta_error_of_fail (env : RecEnv)
    (h : (transcribe_audio env).success = false) :
    ∃ m, (transcribe_audio env).error = some m ∧
      m ≠ "Transcription failed" := by
  cases henv : env.read with
  | exn d =>
      exact ⟨_, by simp [transcribe_audio, henv],
        (failed_ne_processing d).symm⟩
  | ok =>
      cases hout : env.outcome with
      | ok t => simp [transcribe_audio, henv, hout] at h
      | unknown =>
          exact ⟨_, by simp [transcribe_audio, henv, hout],
            Ne.symm failed_ne_understand⟩
      | requestError d =>
          exact ⟨_, by simp [transcribe_audio, henv, hout],
            (failed_ne_request d).symm⟩

/-! ### Claim theorems -/

/-- Claim C2: allowed_file accepts a filename exactly when it decomposes
as base ++ "." ++ ext with a dot-free ext (the substring after the last
'.') whose lowercasing is in the fixed allow-list {wav, mp3, flac, aiff,
aac}; every filename containing no '.' is rejected; and the verdict
depends only on the lowercased extension, so acceptance is
case-insensitive in the extension. -/
theorem allowed_file_spec (f : String) :
    (allowed_file f = true ↔
      ∃ a e : String, f = a ++ "." ++ e ∧ '.' ∉ e.data ∧
        lowerStr e ∈ ALLOWED_EXTENSIONS) ∧
    ('.' ∉ f.data → allowed_file f = false) ∧
    (∀ a e₁ e₂ : String, '.' ∉ e₁.data → '.' ∉ e₂.data →
      lowerStr e₁ = lowerStr e₂ →
      allowed_file (a ++ "." ++ e₁) = allowed_file (a ++ "." ++ e₂)) := by
  refine ⟨⟨?_, ?_⟩, ?_, ?_⟩
  · intro h
    rw [allowed_file, Bool.and_eq_true, decide_eq_true_eq,
      decide_eq_true_eq] at h
    obtain ⟨hdot, hmem⟩ := h
    obtain ⟨pre, suf, hsplit, hsuf, hafter⟩ := dot_split hdot
    have hf : f = String.mk pre ++ "." ++ String.mk suf := by
      apply String.ext
      rw [data_dot_append]
      exact hsplit
    have hext : afterLastDot f = String.mk suf := by
      unfold afterLastDot
      rw [hafter]
    exact ⟨String.mk pre, String.mk suf, hf, hsuf, hext ▸ hmem⟩
  · rintro ⟨a, e, rfl, he, hmem⟩
    rw [allowed_file_append a e he]
    simpa using hmem
  · intro hno
    simp [allowed_file, hno]
  · intro a e₁ e₂ h₁ h₂ hlow
    rw [allowed_file_append a e₁ h₁, allowed_file_append a e₂ h₂, hlow]

/-- Claim C1: for every file path (every behaviour of the file read and of
the backend, modelled by the environment), transcribe_audio returns
exactly one of the spec's result shapes: success with the fixed confidence
constant and the measured processing time; unintelligible audio; backend
request failure with a detail; or the catch-all for any other exception
during file read or decode, with processing time 0.  The second part shows
the four shapes are pairwise disjoint, so exactly one holds. -/
theorem transcribe_audio_shapes (env : RecEnv) :
    (SuccessShape env.elapsed (transcribe_audio env) ∨
     UnknownShape env.elapsed (transcribe_audio env) ∨
     RequestShape env.elapsed (transcribe_audio env) ∨
     CatchAllShape (transcribe_audio env)) ∧
    (∀ e r, ¬ (SuccessShape e r ∧ UnknownShape e r)) ∧
    (∀ e r, ¬ (SuccessShape e r ∧ RequestShape e r)) ∧
    (∀ e r, ¬ (SuccessShape e r ∧ CatchAllShape r)) ∧
    (∀ e r, ¬ (UnknownShape e r ∧ RequestShape e r)) ∧
    (∀ e r, ¬ (UnknownShape e r ∧ CatchAllShape r)) ∧
    (∀ e r, ¬ (RequestShape e r ∧ CatchAllShape r)) := by
  refine ⟨?_, ?_, ?_, ?_, ?_, ?_, ?_⟩
  · cases henv : env.read with
    | exn d =>
        right; right; right
        exact ⟨d, by simp [transcribe_audio, henv]⟩
    | ok =>
        cases hout : env.outcome with
        | ok t =>
            left
            exact ⟨t, by simp [transcribe_audio, henv, hout]⟩
        | unknown =>
            right; left
            simp [UnknownShape, transcribe_audio, henv, hout]
        | requestError d =>
            right; right; left
            exact ⟨d, by simp [transcribe_audio, henv, hout]⟩
  · intro e r h
    simp only [SuccessShape, UnknownShape] at h
    obtain ⟨⟨t, rfl⟩, h2⟩ := h
    simp at h2
  · intro e r h
    simp only [SuccessShape, RequestShape] at h
    obtain ⟨⟨t, rfl⟩, d, h2⟩ := h
    simp at h2
  · intro e r h
    simp only [SuccessShape, CatchAllShape] at h
    obtain ⟨⟨t, rfl⟩, d, h2⟩ := h
    simp at h2
  · intro e r h
    simp only [UnknownShape, RequestShape] at h
    obtain ⟨rfl, d, h2⟩ := h
    simp only [TranscribeResult.mk.injEq, Option.some.injEq] at h2
    exact understand_ne_request d h2.2.2.2.1
  · intro e r h
    simp only [UnknownShape, CatchAllShape] at h
    obtain ⟨rfl, d, h2⟩ := h
    simp only [TranscribeResult.mk.injEq, Option.some.injEq] at h2
    exact understand_ne_processing d h2.2.2.2.1
  · intro e r h
    simp only [RequestShape, CatchAllShape] at h
    obtain ⟨⟨d, rfl⟩, d', h2⟩ := h
    simp only [TranscribeResult.mk.injEq, Option.some.injEq] at h2
    exact request_ne_processing d d' h2.2.2.2.1

/-- Claim C10: transcribe_audio is total over every modelled behaviour of
the file read and the external recognition call (it is a function of the
environment: each exception path is mapped to a result, none propagates to
the caller); success and processing_time are plain fields of its result
type because every return literal of the source carries both keys; every
failure result carries the error key; and the caller's fallback string
"Transcription failed" is never what a failed upload stores. -/
theorem transcribe_audio_total_keys (env : RecEnv) :
    ((transcribe_audio env).success = false →
      ∃ m, (transcribe_audio env).error = some m ∧
        m ≠ "Transcription failed") ∧
    ((transcribe_audio env).success = true →
      (∃ t, (transcribe_audio env).text = some t) ∧
      (transcribe_audio env).confidence = some 0.95) ∧
    ((transcribe_audio env).success = false →
      ∀ (sanitize : String → String) (folder : String)
        (req : UploadRequest) (now : Nat) (db : List TranscriptionRow)
        (row : TranscriptionRow),
        (upload_file sanitize folder req env now db).2.1 = db ++ [row] →
        row.original_text ≠ some "Transcription failed") := by
  refine ⟨ta_error_of_fail env, ?_, ?_⟩
  · intro hs
    cases henv : env.read with
    | exn d => simp [transcribe_audio, henv] at hs
    | ok =>
        cases hout : env.outcome with
        | ok t => simp [transcribe_audio, henv, hout]
        | unknown => simp [transcribe_audio, henv, hout] at hs
        | requestError d => simp [transcribe_audio, henv, hout] at hs
  · intro hfail sanitize folder req now db row h
    rw [upload_file_db_eq] at h
    by_cases hv : validReq req = true
    · rw [if_pos hv] at h
      have hrow : insertedRow sanitize req env now db.length = row :=
        List.append_cancel_left h |> List.cons.inj |> And.left
      obtain ⟨m, hm, hne⟩ := ta_error_of_fail env hfail
      rw [← hrow]
      simp only [insertedRow, hfail]
      simp [hm]
      exact hne
    · rw [if_neg hv] at h
      simp at h

/-- A transcription result measured with a nonnegative clock difference
has nonnegative processing time (the catch-all path reports 0). -/
theorem ta_pt_nonneg (env : RecEnv) (he : 0 ≤ env.elapsed) :
    0 ≤ (transcribe_audio env).processing_time := by
  cases henv : env.read with
  | exn d => simp [transcribe_audio, henv]
  | ok =>
      cases hout : env.outcome <;> simp [transcribe_audio, henv, hout, he]

/-- Claim C3: for every upload whose transcription succeeds, exactly one
record is appended to the store, with confidence the fixed constant 0.95
and the non-null transcript as its text, and the response is the 200 JSON
object {success: true, text, confidence, processing_time, filename}. -/
theorem upload_success_record (sanitize : String → String) (folder : String)
    (req : UploadRequest) (env : RecEnv) (now : Nat)
    (db : List TranscriptionRow) (t : String)
    (hb : req.hasAudioFile = true) (hn : req.filename ≠ "")
    (ha : allowed_file req.filename = true)
    (hr : env.read = AudioRead.ok) (ho : env.outcome = RecOutcome.ok t) :
    (upload_file sanitize folder req env now db).2.1 =
      db ++ [{ id := db.length + 1, filename := sanitize req.filename,
               original_text := some t, confidence := some 0.95,
               processing_time := some env.elapsed, created_at := now }] ∧
    (upload_file sanitize folder req env now db).1 =
      UploadResponse.ok t 0.95 env.elapsed (sanitize req.filename) ∧
    statusOf (upload_file sanitize folder req env now db).1 = 200 := by
  refine ⟨?_, ?_, ?_⟩ <;>
    simp [upload_file, insertRow, transcribe_audio, statusOf, hb, hn, ha,
      hr, ho]

theorem upload_success_record_witness :
    statusOf (upload_file id "uploads" ⟨true, "sample.wav"⟩
      ⟨AudioRead.ok, RecOutcome.ok "hello world", 1⟩ 0 []).1 = 200 :=
  (upload_success_record id "uploads" ⟨true, "sample.wav"⟩
    ⟨AudioRead.ok, RecOutcome.ok "hello world", 1⟩ 0 [] "hello world"
    rfl (by decide) (by decide) rfl rfl).2.2

/-- Claim C4: for every upload whose transcription fails (unintelligible
audio, backend request failure, or catch-all local failure), a record is
still appended whose text field holds the non-null error string and whose
processing time is nonnegative (given a nonnegative measured duration),
and the response is the 400 JSON object carrying that error message and
that processing time. -/
theorem upload_failure_record (sanitize : String → String) (folder : String)
    (req : UploadRequest) (env : RecEnv) (now : Nat)
    (db : List TranscriptionRow)
    (hb : req.hasAudioFile = true) (hn : req.filename ≠ "")
    (ha : allowed_file req.filename = true)
    (hf : (transcribe_audio env).success = false)
    (he : 0 ≤ env.elapsed) :
    ∃ m, (transcribe_audio env).error = some m ∧
      (upload_file sanitize folder req env now db).2.1 =
        db ++ [{ id := db.length + 1, filename := sanitize req.filename,
                 original_text := some m, confidence := none,
                 processing_time :=
                   some (transcribe_audio env).processing_time,
                 created_at := now }] ∧
      0 ≤ (transcribe_audio env).processing_time ∧
      (upload_file sanitize folder req env now db).1 =
        UploadResponse.fail m (transcribe_audio env).processing_time ∧
      statusOf (upload_file sanitize folder req env now db).1 = 400 := by
  obtain ⟨m, hm, _⟩ := ta_error_of_fail env hf
  refine ⟨m, hm, ?_, ta_pt_nonneg env he, ?_, ?_⟩ <;>
    simp [upload_file, insertRow, statusOf, hb, hn, ha, hf, hm]

theorem upload_failure_record_witness :
    statusOf (upload_file id "uploads" ⟨true, "sample.wav"⟩
      ⟨AudioRead.ok, RecOutcome.unknown, 1⟩ 0 []).1 = 400 := by
  obtain ⟨m, hm, hdb, hpt, hresp, hstatus⟩ :=
    upload_failure_record id "uploads" ⟨true, "sample.wav"⟩
      ⟨AudioRead.ok, RecOutcome.unknown, 1⟩ 0 [] rfl (by decide) (by decide)
      rfl (by norm_num)
  exact hstatus

/-- Claim C5: a POST to /upload with no audio_file part or with an empty
filename is answered 400 "No file selected" with no store operation and no
filesystem effect; an upload whose filename fails the extension allow-list
is answered 400 "File type not supported" with no row inserted. -/
theorem upload_rejects_invalid (sanitize : String → String) (folder : String)
    (req : UploadRequest) (env : RecEnv) (now : Nat)
    (db : List TranscriptionRow) :
    ((req.hasAudioFile = false ∨ req.filename = "") →
      upload_file sanitize folder req env now db =
        (UploadResponse.noFile, db, []) ∧
      statusOf UploadResponse.noFile = 400) ∧
    (req.hasAudioFile = true → req.filename ≠ "" →
      allowed_file req.filename = false →
      upload_file sanitize folder req env now db =
        (UploadResponse.badType, db, []) ∧
      statusOf UploadResponse.badType = 400) := by
  constructor
  · rintro (hb | hn)
    · exact ⟨by simp [upload_file, hb], rfl⟩
    · refine ⟨?_, rfl⟩
      cases hb : req.hasAudioFile
      · simp [upload_file, hb]
      · simp [upload_file, hb, hn]
  · intro hb hn ha
    exact ⟨by simp [upload_file, hb, hn, ha], rfl⟩

/-- Claim C8: every upload that passes validation writes the file to the
configured directory under its sanitized name and removes that same path
afterwards, for every transcription outcome (success or failure alike):
the effect trace is exactly save then remove of the same path. -/
theorem upload_saves_then_removes (sanitize : String → String)
    (folder : String) (req : UploadRequest) (env : RecEnv) (now : Nat)
    (db : List TranscriptionRow)
    (hb : req.hasAudioFile = true) (hn : req.filename ≠ "")
    (ha : allowed_file req.filename = true) :
    (upload_file sanitize folder req env now db).2.2 =
      [FileOp.save (folder ++ "/" ++ sanitize req.filename),
       FileOp.remove (folder ++ "/" ++ sanitize req.filename)] := by
  simp [upload_file, hb, hn, ha]

theorem upload_saves_then_removes_witness :
    (upload_file id "uploads" ⟨true, "sample.wav"⟩
      ⟨AudioRead.exn "boom", RecOutcome.unknown, 1⟩ 0 []).2.2 =
      [FileOp.save ("uploads" ++ "/" ++ id "sample.wav"),
       FileOp.remove ("uploads" ++ "/" ++ id "sample.wav")] :=
  upload_saves_then_removes id "uploads" ⟨true, "sample.wav"⟩
    ⟨AudioRead.exn "boom", RecOutcome.unknown, 1⟩ 0 []
    rfl (by decide) (by decide)

/-- Claim C9: every modelled operation either leaves the store unchanged
or appends exactly one new row at the end, never touching existing rows;
an upload that reaches the persistence step appends exactly one row; the
read endpoints /history and /stats leave the store unchanged; and init_db
is create-if-absent, leaving an existing table untouched. -/
theorem store_append_only (sanitize : String → String) (folder : String)
    (req : UploadRequest) (env : RecEnv) (now : Nat)
    (db : List TranscriptionRow) :
    ((upload_file sanitize folder req env now db).2.1 = db ∨
      ∃ row, (upload_file sanitize folder req env now db).2.1 =
        db ++ [row]) ∧
    (validReq req = true →
      ∃ row, (upload_file sanitize folder req env now db).2.1 =
        db ++ [row]) ∧
    (get_history db).2 = db ∧
    (get_stats db).2 = db ∧
    init_db (some db) = db ∧
    init_db none = [] := by
  refine ⟨?_, ?_, rfl, rfl, rfl, rfl⟩
  · rw [upload_file_db_eq]
    by_cases hv : validReq req = true
    · right
      exact ⟨_, by rw [if_pos hv]⟩
    · left
      rw [if_neg hv]
  · intro hv
    rw [upload_file_db_eq, if_pos hv]
    exact ⟨_, rfl⟩

/-- Every inserted row records the adapter's processing time. -/
theorem insertedRow_pt (sanitize : String → String) (req : UploadRequest)
    (env : RecEnv) (now idBase : Nat) :
    (insertedRow sanitize req env now idBase).processing_time =
      some (transcribe_audio env).processing_time := by
  cases hs : (transcribe_audio env).success <;> simp [insertedRow, hs]

/-- An inserted row has positive confidence exactly when the transcription
succeeded: success stores the constant 0.95 > 0, failure stores NULL. -/
theorem confPos_insertedRow (sanitize : String → String)
    (req : UploadRequest) (env : RecEnv) (now idBase : Nat) :
    confPos (insertedRow sanitize req env now idBase) =
      (transcribe_audio env).success := by
  cases henv : env.read with
  | exn d => simp [confPos, insertedRow, transcribe_audio, henv]
  | ok =>
      cases hout : env.outcome with
      | ok t =>
          simp [confPos, insertedRow, transcribe_audio, henv, hout]
          norm_num
      | unknown => simp [confPos, insertedRow, transcribe_audio, henv, hout]
      | requestError d =>
          simp [confPos, insertedRow, transcribe_audio, henv, hout]

/-- Each upload grows the table by one row when it passes validation and
leaves it unchanged otherwise. -/
theorem runUploads_length (sanitize : String → String) (folder : String)
    (reqs : List (UploadRequest × RecEnv × Nat))
    (db : List TranscriptionRow) :
    (runUploads sanitize folder reqs db).length =
      db.length + reqs.countP (fun x => validReq x.1) := by
  induction reqs generalizing db with
  | nil => simp [runUploads]
  | cons x rest ih =>
      obtain ⟨req, env, now⟩ := x
      rw [runUploads, ih, upload_file_db_eq]
      by_cases hv : validReq req = true
      · rw [if_pos hv]
        simp [List.countP_cons, hv]
        omega
      · rw [if_neg hv]
        simp only [List.countP_cons]
        simp [hv]

/-- Every row of a store produced by uploads carries a processing time
(the column is never NULL in rows this system writes). -/
theorem runUploads_pt_some (sanitize : String → String) (folder : String)
    (reqs : List (UploadRequest × RecEnv × Nat))
    (db : List TranscriptionRow)
    (h : ∀ r ∈ db, r.processing_time.isSome = true) :
    ∀ r ∈ runUploads sanitize folder reqs db,
      r.processing_time.isSome = true := by
  induction reqs generalizing db with
  | nil => simpa [runUploads] using h
  | cons x rest ih =>
      obtain ⟨req, env, now⟩ := x
      rw [runUploads]
      apply ih
      intro r hr
      rw [upload_file_db_eq] at hr
      by_cases hv : validReq req = true
      · rw [if_pos hv, List.mem_append] at hr
        cases hr with
        | inl hmem => exact h r hmem
        | inr hmem =>
            have : r = insertedRow sanitize req env now db.length := by
              simpa using hmem
            rw [this, insertedRow_pt]
            rfl
      · rw [if_neg hv] at hr
        exact h r hr

/-- The rows with positive confidence are exactly the successful uploads. -/
theorem runUploads_confPos_count (sanitize : String → String)
    (folder : String) (reqs : List (UploadRequest × RecEnv × Nat))
    (db : List TranscriptionRow) :
    (runUploads sanitize folder reqs db).countP confPos =
      db.countP confPos +
        reqs.countP
          (fun x => validReq x.1 && (transcribe_audio x.2.1).success) := by
  induction reqs generalizing db with
  | nil => simp [runUploads]
  | cons x rest ih =>
      obtain ⟨req, env, now⟩ := x
      rw [runUploads, ih, upload_file_db_eq]
      by_cases hv : validReq req = true
      · rw [if_pos hv, List.countP_append]
        simp [List.countP_cons, confPos_insertedRow, hv]
        cases hs : (transcribe_audio env).success <;> simp [hs]
        omega
      · rw [if_neg hv]
        simp [List.countP_cons, hv]

/-- filterMap of a function that is some everywhere on the list is map. -/
theorem filterMap_eq_map_of_forall_some {α β : Type} (f : α → Option β)
    (g : α → β) (l : List α) (h : ∀ a ∈ l, f a = some (g a)) :
    l.filterMap f = l.map g := by
  induction l with
  | nil => rfl
  | cons a l ih =>
      rw [List.filterMap_cons, h a (List.mem_cons_self a l), List.map_cons,
        ih (fun b hb => h b (List.mem_cons_of_mem a hb))]

/-- Claim C6 (amended): for every store state, /history returns at most 50
records, each taken from the store, ordered by non-increasing creation
time (newest first); the order is not strict, because rows created in the
same CURRENT_TIMESTAMP second share a creation time. -/
theorem history_capped_and_sorted (db : List TranscriptionRow) :
    (get_history db).1.length ≤ 50 ∧
    List.Sorted createdGe (get_history db).1 ∧
    ∀ r ∈ (get_history db).1, r ∈ db := by
  refine ⟨?_, ?_, ?_⟩
  · exact List.length_take_le 50 _
  · exact (List.sorted_insertionSort createdGe db).sublist
      (List.take_sublist 50 _)
  · intro r hr
    exact (List.perm_insertionSort createdGe db).subset
      (List.mem_of_mem_take hr)

/-- Claim C6 as stated is false: with two rows created at the same clock
second, the history list is not strictly descending in creation time. -/
theorem history_not_strictly_sorted_cex :
    ¬ ((get_history dbTie).1.length ≤ 50 ∧
       List.Pairwise (fun a b => b.created_at < a.created_at)
         (get_history dbTie).1) := by
  rintro ⟨-, h⟩
  have he : (get_history dbTie).1 = dbTie := rfl
  rw [he, dbTie] at h
  have := List.rel_of_pairwise_cons h (List.mem_singleton_self _)
  simp at this

/-- Claim C7: running any sequence of uploads against a fresh store,
/stats reports a total equal to the number of rows inserted by the uploads
that reached the store, a successful count (rows with positive confidence)
equal to the number of uploads whose transcription succeeded, and the
average processing time across all rows; the read returns the store
unchanged (idempotent, no side effects). -/
theorem stats_counts_uploads (sanitize : String → String) (folder : String)
    (reqs : List (UploadRequest × RecEnv × Nat)) :
    (get_stats (runUploads sanitize folder reqs [])).1.total_transcriptions
        = reqs.countP (fun x => validReq x.1) ∧
    (get_stats
        (runUploads sanitize folder reqs [])).1.successful_transcriptions =
      reqs.countP
        (fun x => validReq x.1 && (transcribe_audio x.2.1).success) ∧
    (runUploads sanitize folder reqs [] ≠ [] →
      (get_stats (runUploads sanitize folder reqs [])).1.avg_processing_time
          = some (((runUploads sanitize folder reqs []).map
              (fun r => r.processing_time.getD 0)).sum /
            (runUploads sanitize folder reqs []).length)) ∧
    (get_stats (runUploads sanitize folder reqs [])).2 =
      runUploads sanitize folder reqs [] := by
  have hpt : ∀ r ∈ runUploads sanitize folder reqs [],
      r.processing_time = some (r.processing_time.getD 0) := by
    intro r hr
    have hs := runUploads_pt_some sanitize folder reqs [] (by simp) r hr
    cases hv : r.processing_time with
    | none => rw [hv] at hs; simp at hs
    | some v => rfl
  have hfm : (runUploads sanitize folder reqs []).filterMap
      (fun r => r.processing_time) =
      (runUploads sanitize folder reqs []).map
        (fun r => r.processing_time.getD 0) :=
    filterMap_eq_map_of_forall_some _ _ _ hpt
  refine ⟨?_, ?_, ?_, rfl⟩
  · rw [show (get_stats (runUploads sanitize folder reqs
        [])).1.total_transcriptions =
        (runUploads sanitize folder reqs []).length from rfl]
    rw [runUploads_length]
    simp
  · rw [show (get_stats (runUploads sanitize folder reqs
        [])).1.successful_transcriptions =
        (runUploads sanitize folder reqs []).countP confPos from rfl]
    rw [runUploads_confPos_count]
    simp
  · intro hne
    rw [show (get_stats (runUploads sanitize folder reqs
        [])).1.avg_processing_time =
        (if ((runUploads sanitize folder reqs []).filterMap
            (fun r => r.processing_time)).isEmpty then none
         else some (((runUploads sanitize folder reqs []).filterMap
              (fun r => r.processing_time)).sum /
            ((runUploads sanitize folder reqs []).filterMap
              (fun r => r.processing_time)).length)) from rfl]
    rw [hfm]
    rw [if_neg (by simpa [List.isEmpty_iff] using hne)]
    simp
